import Mathlib

/-!
Verification of the Pacifica python-sdk signing and translation core.

The development shallowly embeds the request-signing layer (`pacifica/auth.py`),
the request builder (`pacifica/api/base.py`), the outbound order translators
(`pacifica/api/exchange.py`, `pacifica/api/exchange_async.py`) and the
leverage-resolution read path (`pacifica/api/info.py`,
`pacifica/transformers/account.py`).

Python dictionaries are embedded as insertion-ordered association lists
(`PyDict`), which is exactly the observable semantics of `dict` in Python 3.7+:
iteration order is insertion order, assigning to an existing key keeps its
position, `del` removes the pair.  JSON-serializable Python values are embedded
as the inductive `Json` (this SDK only ever signs strings, integers, booleans,
`None`, lists and dicts).
-/

/-- A CPython float, represented by what uniquely determines its `str()`/`repr()`
and JSON rendering: the sign, the shortest-repr significant decimal digits
(no trailing zeros; `[0]` for zero), and the position `decpt` of the decimal
point (value = `0.digits × 10^decpt`).  Every finite float has exactly one such
decomposition (IEEE-754 shortest round-tripping representation). -/
structure PyFloat where
  neg : Bool
  digits : List Nat
  decpt : Int
deriving DecidableEq

/-- JSON-serializable Python values as used by the SDK's signing path. -/
inductive Json where
  | null : Json
  | bool : Bool → Json
  | int : Int → Json
  | float : PyFloat → Json
  | str : String → Json
  | arr : List Json → Json
  | obj : List (String × Json) → Json

/-- A Python `dict` with string keys: insertion-ordered association list. -/
abbrev PyDict := List (String × Json)

/-- First binding of key `k`, like `d[k]` / `d.get(k)` on a Python dict
(which cannot hold duplicate keys, so the first binding is the binding). -/
def pyLookup (d : PyDict) (k : String) : Option Json :=
  match d with
  | [] => none
  | (k', v) :: rest => if k' = k then some v else pyLookup rest k

/-- Python `k in d`. -/
def pyContains (d : PyDict) (k : String) : Bool :=
  (pyLookup d k).isSome

/-- Python `d.get(k, default)`. -/
def pyGetD (d : PyDict) (k : String) (v : Json) : Json :=
  (pyLookup d k).getD v

/-- Python `d[k] = v`: overwrite in place if the key exists, else append. -/
def pyDictSet (d : PyDict) (k : String) (v : Json) : PyDict :=
  match d with
  | [] => [(k, v)]
  | (k', v') :: rest => if k' = k then (k', v) :: rest else (k', v') :: pyDictSet rest k v

/-- Python `del d[k]` (removes the binding; no-op here when absent). -/
def pyDictDel (d : PyDict) (k : String) : PyDict :=
  match d with
  | [] => []
  | (k', v') :: rest => if k' = k then rest else (k', v') :: pyDictDel rest k

/-- Python `{**base, **upd}`: successive assignment of `upd`'s pairs into `base`. -/
def pyDictUnion (base upd : PyDict) : PyDict :=
  upd.foldl (fun acc p => pyDictSet acc p.1 p.2) base

/-- Keys of a dict, in insertion order. -/
def pyKeys (d : PyDict) : List String :=
  d.map Prod.fst

/-- Python truthiness of an embedded value (`if x:`). -/
def jsonTruthy : Json → Bool
  | .null => false
  | .bool b => b
  | .int n => n ≠ 0
  | .float f => f.digits ≠ [0]
  | .str s => s ≠ ""
  | .arr l => ¬ l.isEmpty
  | .obj l => ¬ l.isEmpty

/-- Exponent suffix of CPython's float scientific notation: sign always
written, at least two exponent digits (`%+03d`-style). -/
def pyExpFormat (e : Int) : String :=
  let sign := if e < 0 then "-" else "+"
  let a := e.natAbs
  sign ++ (if a < 10 then "0" ++ toString a else toString a)

/-- CPython `str(float)`/`repr(float)` (also what `json.dumps` emits for a
float), given the shortest-repr decomposition: scientific notation exactly
when `decpt ≤ -4` or `decpt > 16` (exponent `decpt - 1`), otherwise fixed
point, with `.0` appended to integral values. -/
def pyFloatRepr (f : PyFloat) : String :=
  let ds := f.digits.map Nat.digitChar
  let core :=
    if f.decpt ≤ -4 ∨ f.decpt > 16 then
      (match ds with
       | [] => "0"
       | [d] => String.mk [d]
       | d :: rest => String.mk [d] ++ "." ++ String.mk rest) ++
      "e" ++ pyExpFormat (f.decpt - 1)
    else if f.decpt ≤ 0 then
      "0." ++ String.mk (List.replicate f.decpt.natAbs '0') ++ String.mk ds
    else if (f.digits.length : Int) ≤ f.decpt then
      String.mk ds ++ String.mk (List.replicate (f.decpt - f.digits.length).natAbs '0') ++ ".0"
    else
      String.mk (ds.take f.decpt.natAbs) ++ "." ++ String.mk (ds.drop f.decpt.natAbs)
  (if f.neg then "-" else "") ++ core

/-- Four lowercase hex digits of `n % 65536`, most significant first. -/
def toHex4 (n : Nat) : List Char :=
  [Nat.digitChar (n / 4096 % 16), Nat.digitChar (n / 256 % 16),
   Nat.digitChar (n / 16 % 16), Nat.digitChar (n % 16)]

/-- CPython `json.dumps` escaping of one character (default `ensure_ascii=True`):
shortcut escapes for the usual control characters, `\x22` and backslash; every
other character outside `0x20`–`0x7e` becomes `\uXXXX` (surrogate pairs above
the BMP); printable ASCII passes through. -/
def pyJsonEscapeChar (c : Char) : List Char :=
  if c = '\x22' then ['\\', '\x22']
  else if c = '\\' then ['\\', '\\']
  else if c = '\n' then ['\\', 'n']
  else if c = '\r' then ['\\', 'r']
  else if c = '\t' then ['\\', 't']
  else if c = '\x08' then ['\\', 'b']
  else if c = '\x0c' then ['\\', 'f']
  else if 0x20 ≤ c.toNat ∧ c.toNat ≤ 0x7e then [c]
  else if c.toNat < 0x10000 then '\\' :: 'u' :: toHex4 c.toNat
  else
    ('\\' :: 'u' :: toHex4 (0xd800 + (c.toNat - 0x10000) / 1024)) ++
    ('\\' :: 'u' :: toHex4 (0xdc00 + (c.toNat - 0x10000) % 1024))

/-- A JSON string literal as `json.dumps` renders it. -/
def pyJsonQuote (s : String) : String :=
  "\x22" ++ String.mk (s.data.map pyJsonEscapeChar).flatten ++ "\x22"

/-- Compact `json.dumps(value, separators=(",", ":"))`: no whitespace, keys
emitted in the dict's insertion order. -/
def pyDumps : Json → String
  | .null => "null"
  | .bool b => if b then "true" else "false"
  | .int n => toString n
  | .float f => pyFloatRepr f
  | .str s => pyJsonQuote s
  | .arr l => "[" ++ String.intercalate "," (l.attach.map (fun x => pyDumps x.1)) ++ "]"
  | .obj l =>
      "\x7b" ++
        String.intercalate ","
          (l.attach.map (fun x => pyJsonQuote x.1.1 ++ ":" ++ pyDumps x.1.2)) ++
      "\x7d"
decreasing_by
  · have := List.sizeOf_lt_of_mem x.2
    simp at *
    omega
  · have h1 := List.sizeOf_lt_of_mem x.2
    obtain ⟨⟨k, v⟩, hm⟩ := x
    simp at *
    omega

/-- Lexicographic comparison (non-strict) of character lists by code point,
which is exactly Python's `str` ordering used by `sorted`. -/
def charListLe : List Char → List Char → Bool
  | [], _ => true
  | _ :: _, [] => false
  | a :: as, b :: bs =>
      if a.toNat < b.toNat then true
      else if a.toNat = b.toNat then charListLe as bs
      else false

/-- Strict lexicographic comparison of character lists by code point. -/
def charListLt : List Char → List Char → Bool
  | [], [] => false
  | [], _ :: _ => true
  | _ :: _, [] => false
  | a :: as, b :: bs =>
      if a.toNat < b.toNat then true
      else if a.toNat = b.toNat then charListLt as bs
      else false

/-- Key order on dict entries used to model Python's `sorted(value.keys())`. -/
def keyRel (p q : String × Json) : Prop :=
  charListLe p.1.data q.1.data = true

instance : DecidableRel keyRel := fun p q => by
  unfold keyRel; infer_instance

/-- Strict key order on dict entries (used only in proofs). -/
def keyRelStrict (p q : String × Json) : Prop :=
  charListLt p.1.data q.1.data = true

/-- PacificaAuth._sort_json_keys: recursively rebuild every dict with its keys
in ascending order; lists keep their element order, scalars pass through.
(The Python code sorts `value.keys()` and then rebuilds the dict by lookup;
on a dict — whose keys are unique — that is the same as stably sorting the
pair list by key, and sorting by key commutes with the recursion into the
values.) -/
def sort_json_keys : Json → Json
  | .null => .null
  | .bool b => .bool b
  | .int n => .int n
  | .float f => .float f
  | .str s => .str s
  | .arr l => .arr (l.attach.map (fun x => sort_json_keys x.1))
  | .obj l =>
      .obj (List.insertionSort keyRel
        (l.attach.map (fun x => (x.1.1, sort_json_keys x.1.2))))
decreasing_by
  · have := List.sizeOf_lt_of_mem x.2
    simp at *
    omega
  · have h1 := List.sizeOf_lt_of_mem x.2
    obtain ⟨⟨k, v⟩, hm⟩ := x
    simp at *
    omega

/-- The exact byte sequence `sign_message` signs for a given merged structure:
sort keys recursively, then compact-dump. -/
def canonicalSerialize (j : Json) : String :=
  pyDumps (sort_json_keys j)

/-- Python errors that the embedded code can raise locally. -/
inductive PyErr where
  | valueError : String → PyErr
  | attributeError : PyErr
  | unboundLocal : String → PyErr
deriving DecidableEq

/-- PacificaAuth (`pacifica/auth.py`): a Solana keypair plus an optional main
account.  The keypair's ed25519 signing primitive (external `solders`
collaborator) is embedded as an abstract function from the signed text to the
base58 signature string; it is a function, hence deterministic. -/
structure PacificaAuth where
  public_key : String
  main_account : Option String
  sign : String → String

/-- PacificaAuth.get_public_key. -/
def get_public_key (a : PacificaAuth) : String :=
  a.public_key

/-- PacificaAuth.is_agent_mode: true iff `main_account` is set. -/
def is_agent_mode (a : PacificaAuth) : Bool :=
  a.main_account.isSome

/-- PacificaAuth.get_account: the main account if in agent mode, else the own
public key (`main_account if main_account else public_key` — a set
`main_account` is a non-empty string, so Python truthiness agrees with
presence; the model uses presence). -/
def get_account (a : PacificaAuth) : String :=
  match a.main_account with
  | some m => m
  | none => a.public_key

/-- PacificaAuth.get_agent_wallet: own public key when in agent mode, else None. -/
def get_agent_wallet (a : PacificaAuth) : Option String :=
  match a.main_account with
  | some _ => some a.public_key
  | none => none

/-- PacificaAuth.sign_message: validate the header, merge `{**header,
"data": payload}`, sort keys recursively, compact-dump, sign; returns the
exact signed text together with the signature. -/
def sign_message (a : PacificaAuth) (header : PyDict) (payload : Json) :
    Except PyErr (String × String) :=
  if pyContains header "type" && pyContains header "timestamp" &&
      pyContains header "expiry_window" then
    let data := pyDictSet header "data" payload
    let message := canonicalSerialize (.obj data)
    .ok (message, a.sign message)
  else
    .error (.valueError "Header must have type, timestamp, and expiry_window")

/-- BaseAPIClient._build_request_with_auth (`pacifica/api/base.py`): without a
configured auth the payload is returned unchanged; otherwise the payload is
signed under a `timestamp`/`expiry_window`/`type` header and wrapped into the
envelope `{account, signature, timestamp, expiry_window: 5000, **data}` with
`agent_wallet` set afterwards — the delegate's own address in agent mode and
explicitly null in direct mode.  The captured epoch-ms timestamp is passed in
as a parameter. -/
def build_request_with_auth (auth : Option PacificaAuth) (data : PyDict)
    (signature_type : String) (timestamp : Int) : Except PyErr PyDict :=
  match auth with
  | none => .ok data
  | some a =>
    let signature_header : PyDict :=
      [("timestamp", .int timestamp), ("expiry_window", .int 5000),
       ("type", .str signature_type)]
    match sign_message a signature_header (.obj data) with
    | .error e => .error e
    | .ok (_, signature) =>
      let request := pyDictUnion
        [("account", .str (get_account a)), ("signature", .str signature),
         ("timestamp", .int timestamp), ("expiry_window", .int 5000)] data
      .ok (pyDictSet request "agent_wallet"
        (match get_agent_wallet a with
         | some w => .str w
         | none => .null))

/-- ExchangeAPI.update_leverage (`pacifica/api/exchange.py`): builds its own
request dict — with `account` taken from `get_public_key()`, not
`get_account()`, and with no `agent_wallet` field — then signs
`json.dumps(message_dict, separators=(",", ":"), sort_keys=True)` of the dict
without its `signature` key and stores the signature on the dict. -/
def update_leverage_data (auth : Option PacificaAuth) (name : String)
    (leverage : Int) (timestamp : Int) : PyDict :=
  let data : PyDict :=
    [("account", match auth with
                 | some a => .str (get_public_key a)
                 | none => .null),
     ("symbol", .str name), ("leverage", .int leverage),
     ("timestamp", .int timestamp), ("type", .str "update_leverage")]
  match auth with
  | some a =>
    let message_dict := data.filter (fun p => p.1 ≠ "signature")
    let message_str := canonicalSerialize (.obj message_dict)
    pyDictSet data "signature" (.str (a.sign message_str))
  | none => data

/-- Python `repr()` of an embedded value.  Scalars are exact; for the container
cases (which no signed field of this SDK ever renders) strings are shown in
single quotes without re-escaping. -/
def pyRepr : Json → String
  | .null => "None"
  | .bool b => if b then "True" else "False"
  | .int n => toString n
  | .float f => pyFloatRepr f
  | .str s => "\x27" ++ s ++ "\x27"
  | .arr l => "[" ++ String.intercalate ", " (l.attach.map (fun x => pyRepr x.1)) ++ "]"
  | .obj l =>
      "\x7b" ++
        String.intercalate ", "
          (l.attach.map (fun x => "\x27" ++ x.1.1 ++ "\x27: " ++ pyRepr x.1.2)) ++
      "\x7d"
decreasing_by
  · have := List.sizeOf_lt_of_mem x.2
    simp at *
    omega
  · have h1 := List.sizeOf_lt_of_mem x.2
    obtain ⟨⟨k, v⟩, hm⟩ := x
    simp at *
    omega

/-- Python `str()` of an embedded value: identity on strings, `repr` otherwise. -/
def pyStr : Json → String
  | .str s => s
  | j => pyRepr j

/-- Python `s.lower()` (ASCII case folding, which covers every input the SDK
compares against `"limit"`/`"market"`). -/
def pyLower (s : String) : String :=
  String.mk (s.data.map Char.toLower)

/-- Python `a or b`. -/
def pyOr (a b : Json) : Json :=
  if jsonTruthy a then a else b

/-- Python `s.startswith(pre)`. -/
def pyStartsWith (s pre : String) : Bool :=
  s.data.take pre.data.length = pre.data

/-- Python `j == s` for a string literal `s`: true iff `j` is that string. -/
def jsonIsStr (j : Json) (s : String) : Bool :=
  match j with
  | .str t => t = s
  | _ => false

/-- The canonical textual form of a version-4 UUID produced by
`str(uuid.uuid4())`: 32 lowercase hex digits grouped 8-4-4-4-12 by hyphens. -/
def uuid4_string (d : List (Fin 16)) : String :=
  let h := d.map (fun i => Nat.digitChar i.val)
  String.mk (h.take 8 ++ '-' :: (h.drop 8).take 4 ++ '-' :: (h.drop 12).take 4 ++
    '-' :: (h.drop 16).take 4 ++ '-' :: h.drop 20)

/-- ExchangeAPI._generate_client_order_id (`pacifica/api/exchange.py`, same
code in `exchange_async.py`): a falsy `cloid` (None or empty) yields a fresh
UUID, a `0x`-prefixed one is silently replaced by a fresh UUID, anything else
passes through.  The fresh `str(uuid.uuid4())` value is passed in as `fresh`. -/
def generate_client_order_id (fresh : String) (cloid : Option String) : String :=
  match cloid with
  | some c => if c ≠ "" then (if pyStartsWith c "0x" then fresh else c) else fresh
  | none => fresh

/-- The same generator applied to a value taken out of a request dict (batch
paths): Python checks truthiness first and then calls `.startswith`, which
fails on a truthy non-string. -/
def generate_client_order_id_json (fresh : String) (cloid : Json) :
    Except PyErr String :=
  if jsonTruthy cloid then
    match cloid with
    | .str c => .ok (if pyStartsWith c "0x" then fresh else c)
    | _ => .error .attributeError
  else
    .ok fresh

/-- Builder handling in ExchangeAPI.order: `if builder:` (truthiness), then the
dict must contain the address key `"b"`; only `builder_code` is forwarded. -/
def apply_builder_single (builder : Option PyDict) (d : PyDict) :
    Except PyErr PyDict :=
  match builder with
  | none => .ok d
  | some b =>
    if jsonTruthy (.obj b) then
      if pyContains b "b" then
        .ok (pyDictSet d "builder_code" (pyGetD b "b" .null))
      else
        .error (.valueError "Builder must be dict with b (address) and optional f (fee)")
    else
      .ok d

/-- The `tif`-mapping tail of ExchangeAPI.order: reading the local `tif` when no
`order_type` branch assigned it raises UnboundLocalError; a truthy value is
mapped from the Hyperliquid to the Pacifica enumeration; on a falsy value a
provisional `tif` entry of a market payload is removed. -/
def order_tif_tail (tifState : Option Json) (d : PyDict) : Except PyErr PyDict :=
  match tifState with
  | none => .error (.unboundLocal "tif")
  | some tif =>
    if jsonTruthy tif then
      if jsonIsStr tif "Alo" then
        .ok (pyDictSet (pyDictSet d "post_only" (.bool true)) "tif" (.str "ALO"))
      else if jsonIsStr tif "Ioc" then
        .ok (pyDictSet d "tif" (.str "IOC"))
      else if jsonIsStr tif "Tob" then
        .ok (pyDictSet d "tif" (.str "TOB"))
      else if jsonIsStr tif "Gtc" || jsonIsStr tif "GTC" then
        .ok (pyDictSet d "tif" (.str "GTC"))
      else
        .ok d
    else
      if pyContains d "slippage_percent" && pyContains d "tif" then
        .ok (pyDictDel d "tif")
      else
        .ok d

/-- The `order_type` dispatch of ExchangeAPI.order: both the legacy string
form (case-insensitive "limit"/"market") and the dict form are handled;
any other shape leaves the local `tif` unassigned (`none`). -/
def order_type_branch (limit_px : Option PyFloat) (order_type : Json)
    (order_data : PyDict) : Except PyErr (PyDict × Option Json) :=
  match order_type with
  | .str s =>
    if pyLower s = "limit" then
      match limit_px with
      | none => .error (.valueError "limit_px is required for limit orders")
      | some px =>
        .ok (pyDictSet (pyDictSet order_data "price" (.str (pyFloatRepr px)))
              "tif" (.str "GTC"), some (.str "GTC"))
    else if pyLower s = "market" then
      let d := pyDictSet order_data "slippage_percent" (.str "0.5")
      .ok (if pyContains d "price" then pyDictDel d "price" else d, some .null)
    else
      .ok (order_data, none)
  | .obj l =>
    if pyContains l "limit" then
      match limit_px with
      | none => .error (.valueError "limit_px is required for limit orders")
      | some px =>
        match pyLookup l "limit" with
        | some (.obj lp) =>
          let tif := pyGetD lp "tif" (.str "GTC")
          .ok (pyDictSet (pyDictSet order_data "price" (.str (pyFloatRepr px)))
                "tif" tif, some tif)
        | _ => .error .attributeError
    else if pyContains l "market" then
      match pyGetD l "market" (.obj []) with
      | .obj mp =>
        let slippage := pyGetD mp "slippage" (.str "0.5")
        let d := pyDictSet order_data "slippage_percent" (.str (pyStr slippage))
        .ok (if pyContains d "price" then pyDictDel d "price" else d, some .null)
      | _ => .error .attributeError
    else
      .ok (order_data, none)
  | _ => .ok (order_data, none)

/-- ExchangeAPI.order (`pacifica/api/exchange.py`), up to and including the
signature-type selection: translates a Hyperliquid-style order into the
Pacifica order payload and the signature type `"create_market_order"` when the
final payload carries `slippage_percent`, else `"create_limit_order"`.
`fresh` stands for the `str(uuid.uuid4())` drawn by the call. -/
def order_request (fresh : String) (name : String) (is_buy : Bool) (sz : PyFloat)
    (limit_px : Option PyFloat) (order_type : Json) (reduce_only : Bool)
    (cloid : Option String) (builder : Option PyDict) :
    Except PyErr (PyDict × String) := do
  let client_order_id := generate_client_order_id fresh cloid
  let order_data : PyDict :=
    [("symbol", .str name), ("side", .str (if is_buy then "bid" else "ask")),
     ("amount", .str (pyFloatRepr sz)), ("reduce_only", .bool reduce_only),
     ("client_order_id", .str client_order_id)]
  let order_data ← apply_builder_single builder order_data
  let (order_data, tifState) ← order_type_branch limit_px order_type order_data
  let order_data ← order_tif_tail tifState order_data
  let signature_type :=
    if pyContains order_data "slippage_percent" then "create_market_order"
    else "create_limit_order"
  return (order_data, signature_type)

/-- ExchangeAPI.order including the authenticated-request construction: an
error raised during translation means nothing is ever signed or sent. -/
def order_signed (auth : Option PacificaAuth) (timestamp : Int) (fresh : String)
    (name : String) (is_buy : Bool) (sz : PyFloat) (limit_px : Option PyFloat)
    (order_type : Json) (reduce_only : Bool) (cloid : Option String)
    (builder : Option PyDict) : Except PyErr (PyDict × String) := do
  let (order_data, signature_type) ←
    order_request fresh name is_buy sz limit_px order_type reduce_only cloid builder
  let request ← build_request_with_auth auth order_data signature_type timestamp
  return (request, signature_type)

/-- Builder handling of the async single-order path (truthiness check,
`b` required, `f` forwarded as `builder_fee`). -/
def apply_builder_with_fee (builder : Option PyDict) (d : PyDict) :
    Except PyErr PyDict :=
  match builder with
  | none => .ok d
  | some b =>
    if jsonTruthy (.obj b) then
      if pyContains b "b" then
        let d1 := pyDictSet d "builder_code" (pyGetD b "b" .null)
        .ok (if pyContains b "f" then pyDictSet d1 "builder_fee" (pyGetD b "f" .null) else d1)
      else
        .error (.valueError "Builder must be dict with b (address) and optional f (fee)")
    else
      .ok d

/-- The `order_type` dispatch of ExchangeAsyncAPI.order: a limit order maps
only `Ioc`/`Tob` onto `tif` (an `Alo` sets `post_only` and leaves the
provisional `tif: "GTC"` in place); a market order sets `type: "market"`. -/
def async_order_branch (limit_px : PyFloat) (order_type : PyDict)
    (order_data : PyDict) : Except PyErr PyDict :=
  if pyContains order_type "limit" then
    match pyLookup order_type "limit" with
    | some (.obj lp) =>
      let d := pyDictSet order_data "price" (.str (pyFloatRepr limit_px))
      let tif := pyGetD lp "tif" (.str "Gtc")
      if jsonIsStr tif "Alo" then
        .ok (pyDictSet d "post_only" (.bool true))
      else if jsonIsStr tif "Ioc" then
        .ok (pyDictSet d "tif" (.str "IOC"))
      else if jsonIsStr tif "Tob" then
        .ok (pyDictSet d "tif" (.str "TOB"))
      else
        .ok d
    | _ => .error .attributeError
  else if pyContains order_type "market" then
    .ok (pyDictSet order_data "type" (.str "market"))
  else
    .ok order_data

/-- ExchangeAsyncAPI.order (`pacifica/api/exchange_async.py`), up to the
authenticated-request construction: the payload starts with `tif: "GTC"`
already set; the signature type is always the constant `"create_order"`. -/
def async_order_request (fresh : String) (name : String) (is_buy : Bool)
    (sz : PyFloat) (limit_px : PyFloat) (order_type : PyDict)
    (reduce_only : Bool) (cloid : Option String) (builder : Option PyDict) :
    Except PyErr (PyDict × String) := do
  let client_order_id := generate_client_order_id fresh cloid
  let order_data : PyDict :=
    [("symbol", .str name), ("side", .str (if is_buy then "bid" else "ask")),
     ("amount", .str (pyFloatRepr sz)), ("reduce_only", .bool reduce_only),
     ("client_order_id", .str client_order_id), ("tif", .str "GTC")]
  let order_data ← apply_builder_with_fee builder order_data
  let order_data ← async_order_branch limit_px order_type order_data
  return (order_data, "create_order")

/-- Builder handling of one batch_orders iteration: presence check on the
`builder` key (no truthiness), dict shape and `b` required, `f` forwarded. -/
def batch_builder_stage (order_req : PyDict) (d : PyDict) : Except PyErr PyDict :=
  if pyContains order_req "builder" then
    match pyLookup order_req "builder" with
    | some (.obj b) =>
      if pyContains b "b" then
        let d1 := pyDictSet d "builder_code" (pyGetD b "b" .null)
        .ok (if pyContains b "f" then pyDictSet d1 "builder_fee" (pyGetD b "f" .null) else d1)
      else
        .error (.valueError "Builder must be dict with b (address) and optional f (fee)")
    | _ => .error (.valueError "Builder must be dict with b (address) and optional f (fee)")
  else
    .ok d

/-- The `order_type` dispatch of one batch_orders iteration: as in the single
path, but the price comes from `order_req["limit_px"]` with no None check, a
dict market order always uses the "0.5" slippage default, and the string
market branch does not delete a `price` key. -/
def batch_order_type_branch (getPx : Except PyErr Json) (order_type : Json)
    (order_data : PyDict) : Except PyErr (PyDict × Option Json) :=
  match order_type with
  | .str s =>
    if pyLower s = "limit" then
      match getPx with
      | .error e => .error e
      | .ok px =>
        .ok (pyDictSet (pyDictSet order_data "price" (.str (pyStr px)))
              "tif" (.str "GTC"), some (.str "GTC"))
    else if pyLower s = "market" then
      .ok (pyDictSet order_data "slippage_percent" (.str "0.5"), some .null)
    else
      .ok (order_data, none)
  | .obj l =>
    if pyContains l "limit" then
      match getPx with
      | .error e => .error e
      | .ok px =>
        match pyLookup l "limit" with
        | some (.obj lp) =>
          let tif := pyGetD lp "tif" (.str "GTC")
          .ok (pyDictSet (pyDictSet order_data "price" (.str (pyStr px)))
                "tif" tif, some tif)
        | _ => .error .attributeError
    else if pyContains l "market" then
      .ok (pyDictSet order_data "slippage_percent" (.str "0.5"), some .null)
    else
      .ok (order_data, none)
  | _ => .ok (order_data, none)

/-- The `tif`-mapping tail of one batch_orders iteration: like the single
path's, but with no market-order `tif` removal branch. -/
def batch_order_tif_tail (tifState : Option Json) (d : PyDict) :
    Except PyErr PyDict :=
  match tifState with
  | none => .error (.unboundLocal "tif")
  | some tif =>
    if jsonTruthy tif then
      if jsonIsStr tif "Alo" then
        .ok (pyDictSet (pyDictSet d "post_only" (.bool true)) "tif" (.str "ALO"))
      else if jsonIsStr tif "Ioc" then
        .ok (pyDictSet d "tif" (.str "IOC"))
      else if jsonIsStr tif "Gtc" || jsonIsStr tif "GTC" then
        .ok (pyDictSet d "tif" (.str "GTC"))
      else if jsonIsStr tif "Tob" then
        .ok (pyDictSet d "tif" (.str "TOB"))
      else
        .ok d
    else
      .ok d

/-- One iteration of ExchangeAPI.batch_orders (`pacifica/api/exchange.py`):
translation of a single order-request dict into its signed sub-payload's order
data and per-item signature type. -/
def batch_order_item (fresh : String) (order_req : PyDict) :
    Except PyErr (PyDict × String) := do
  let client_order_id ← generate_client_order_id_json fresh (pyGetD order_req "cloid" .null)
  let is_buy ← match pyLookup order_req "is_buy" with
    | some v => pure v
    | none => Except.error (.valueError "KeyError: is_buy")
  let sz ← match pyLookup order_req "sz" with
    | some v => pure v
    | none => Except.error (.valueError "KeyError: sz")
  let order_data : PyDict :=
    [("symbol", pyOr (pyGetD order_req "name" .null) (pyGetD order_req "coin" .null)),
     ("side", .str (if jsonTruthy is_buy then "bid" else "ask")),
     ("amount", .str (pyStr sz)),
     ("reduce_only", pyGetD order_req "reduce_only" (.bool false)),
     ("client_order_id", .str client_order_id)]
  let order_data ← batch_builder_stage order_req order_data
  let order_type := pyGetD order_req "order_type" (.obj [("limit", .obj [("tif", .str "GTC")])])
  let getPx : Except PyErr Json :=
    match pyLookup order_req "limit_px" with
    | some v => .ok v
    | none => .error (.valueError "KeyError: limit_px")
  let (order_data, tifState) ← batch_order_type_branch getPx order_type order_data
  let order_data ← batch_order_tif_tail tifState order_data
  let sig_type :=
    if pyContains order_data "slippage_percent" then "create_market_order"
    else "create_limit_order"
  return (order_data, sig_type)

/-- ExchangeAPI.cancel's request payload: `symbol` plus exactly one of
`order_id` (when `oid` is truthy) or `client_order_id` (when `cloid` is
truthy); both falsy is a ValueError. -/
def cancel_data (name oid cloid : Json) : Except PyErr PyDict :=
  if jsonTruthy oid then
    .ok [("symbol", name), ("order_id", oid)]
  else if jsonTruthy cloid then
    .ok [("symbol", name), ("client_order_id", cloid)]
  else
    .error (.valueError "Either oid or cloid must be provided")

/-- ExchangeAPI.cancel including the transport call, with the outcome of the
HTTP POST abstracted as the oracle `postOk` (false = the request raised): on
success the method always returns the fixed `{"status": "ok", ...}` response. -/
def cancel_response (name oid cloid : Json) (postOk : Bool) :
    Except PyErr PyDict := do
  let _ ← cancel_data name oid cloid
  if postOk then
    return [("status", .str "ok"),
            ("response", .obj [("type", .str "cancel"),
              ("data", .obj [("statuses", .arr [.str "success"])])])]
  else
    Except.error (.valueError "request failed")

/-- The status that one iteration of ExchangeAPI.batch_cancel records for a
single cancel-request dict, given that request's own transport outcome: a
missing id yields "error" directly; an exception inside `cancel` (ValueError
on a falsy id, or the POST failing) is caught and yields "error"; otherwise
the returned status is checked against "ok". -/
def batch_cancel_item_status (req : PyDict) (postOk : Bool) : String :=
  let symbol := pyOr (pyGetD req "name" .null) (pyGetD req "coin" .null)
  if pyContains req "oid" then
    match cancel_response symbol (pyGetD req "oid" .null) .null postOk with
    | .ok r => if jsonIsStr (pyGetD r "status" .null) "ok" then "success" else "error"
    | .error _ => "error"
  else if pyContains req "cloid" then
    match cancel_response symbol .null (pyGetD req "cloid" .null) postOk with
    | .ok r => if jsonIsStr (pyGetD r "status" .null) "ok" then "success" else "error"
    | .error _ => "error"
  else
    "error"

/-- ExchangeAPI.batch_cancel's status list: the loop walks the cancel requests
in order, pairing each with the outcome of its own (independent) cancel call,
and appends one status per request. -/
def batch_cancel_statuses : List (PyDict × Bool) → List String
  | [] => []
  | (req, postOk) :: rest =>
      batch_cancel_item_status req postOk :: batch_cancel_statuses rest

/-- One entry of the task list that ExchangeAsyncAPI.batch_cancel
(`pacifica/api/exchange_async.py`) builds before gathering: either a deferred
`cancel` coroutine (holding the already-evaluated name/oid/cloid arguments) or
the substitute coroutine that just returns `{"status": "error"}`. -/
inductive AsyncCancelTask where
  | cancel (name oid cloid : Json)
  | errorResult

/-- The task-construction loop of ExchangeAsyncAPI.batch_cancel: creating the
`cancel(...)` coroutine evaluates its arguments eagerly, so
`cancel_req["name"]` raises KeyError right here — synchronously, aborting the
whole call — whenever a request carries `oid` or `cloid` but no `name` key
(the coroutine bodies themselves have not run yet). -/
def async_batch_cancel_tasks :
    List (PyDict × Bool) → Except PyErr (List (AsyncCancelTask × Bool))
  | [] => .ok []
  | (req, postOk) :: rest =>
    let task : Except PyErr AsyncCancelTask :=
      if pyContains req "oid" then
        match pyLookup req "name" with
        | some nm => .ok (.cancel nm (pyGetD req "oid" .null) .null)
        | none => .error (.valueError "KeyError: name")
      else if pyContains req "cloid" then
        match pyLookup req "name" with
        | some nm => .ok (.cancel nm .null (pyGetD req "cloid" .null))
        | none => .error (.valueError "KeyError: name")
      else
        .ok .errorResult
    match task with
    | .error e => .error e
    | .ok t =>
      match async_batch_cancel_tasks rest with
      | .error e => .error e
      | .ok ts => .ok ((t, postOk) :: ts)

/-- The result processing of one gathered task (`return_exceptions=True`): an
exception becomes "error", a dict whose `status` is "ok" becomes "success",
anything else — including the substitute `{"status": "error"}` — "error".
The async `cancel` body is the same as the sync one (`cancel_response`). -/
def async_cancel_task_status (t : AsyncCancelTask) (postOk : Bool) : String :=
  match t with
  | .errorResult => "error"
  | .cancel nm oid cloid =>
    match cancel_response nm oid cloid postOk with
    | .ok r => if jsonIsStr (pyGetD r "status" .null) "ok" then "success" else "error"
    | .error _ => "error"

/-- ExchangeAsyncAPI.batch_cancel: build all tasks (any missing `name` aborts
the whole call before anything is gathered), then gather them — each with its
own transport outcome — into the positional status list. -/
def async_batch_cancel (items : List (PyDict × Bool)) : Except PyErr (List String) :=
  match async_batch_cancel_tasks items with
  | .error e => .error e
  | .ok ts => .ok (ts.map (fun x => async_cancel_task_status x.1 x.2))

/-- The task a name-carrying request constructs (used to state what the async
batch returns when no request is missing its `name`). -/
def async_cancel_task_of (req : PyDict) : AsyncCancelTask :=
  if pyContains req "oid" then
    .cancel (pyGetD req "name" .null) (pyGetD req "oid" .null) .null
  else if pyContains req "cloid" then
    .cancel (pyGetD req "name" .null) .null (pyGetD req "cloid" .null)
  else
    .errorResult

/-- The status the async batch records for one name-carrying request, as a
function of that request and its own transport outcome alone. -/
def async_batch_cancel_item_status (req : PyDict) (postOk : Bool) : String :=
  async_cancel_task_status (async_cancel_task_of req) postOk

/-- The account-settings step of InfoAPI.user_state's leverage resolution
(`pacifica/api/info.py`): a dict-shaped settings payload yields
`settings[symbol]["leverage"]` when `symbol` maps to a dict containing
`"leverage"`; a list-shaped payload is scanned for the first dict item whose
`symbol` equals the position's symbol and that contains `"leverage"`;
otherwise the step resolves nothing. -/
def settings_leverage (settings_data : Json) (symbol : String) : Option Json :=
  match settings_data with
  | .obj sd =>
    match pyLookup sd symbol with
    | some (.obj entry) => pyLookup entry "leverage"
    | _ => none
  | .arr items => settings_leverage_scan items symbol
  | _ => none
where
  /-- The list-shaped scan: items matching the symbol but lacking a
  `"leverage"` key do not stop the scan. -/
  settings_leverage_scan : List Json → String → Option Json
  | [], _ => none
  | item :: rest, symbol =>
    match item with
    | .obj e =>
      if jsonIsStr (pyGetD e "symbol" .null) symbol && pyContains e "leverage" then
        pyLookup e "leverage"
      else
        settings_leverage_scan rest symbol
    | _ => settings_leverage_scan rest symbol

/-- The `max_leverage_map` built once by InfoAPI.user_state: every market dict
contributes `symbol ↦ (max_leverage or maxLeverage)` when both the symbol and
the resolved max leverage are truthy (the SDK's market symbols are strings). -/
def build_max_leverage_map (markets_data : List PyDict) : PyDict :=
  markets_data.foldl
    (fun acc m =>
      let symbol := pyGetD m "symbol" .null
      let max_lev := pyOr (pyGetD m "max_leverage" .null) (pyGetD m "maxLeverage" .null)
      match symbol with
      | .str s => if s ≠ "" && jsonTruthy max_lev then pyDictSet acc s max_lev else acc
      | _ => acc)
    []

/-- The per-position leverage enrichment of InfoAPI.user_state: account
settings first, else the market's max leverage; the `leverage` key is stored
on the position only when the resolved value is truthy, and nothing is stored
when neither source resolves. -/
def enrich_position (settings_data : Json) (mlm : PyDict) (pos : PyDict) : PyDict :=
  match pyGetD pos "symbol" .null with
  | .str sym =>
    if sym ≠ "" then
      let lev : Option Json :=
        match settings_leverage settings_data sym with
        | some v => some v
        | none => pyLookup mlm sym
      match lev with
      | some v => if jsonTruthy v then pyDictSet pos "leverage" v else pos
      | none => pos
    else
      pos
  | _ => pos

/-- The position loop of InfoAPI.user_state: each position is enriched
independently against the settings payload and the max-leverage map. -/
def user_state_enrich (settings_data : Json) (markets_data : List PyDict)
    (positions : List PyDict) : List PyDict :=
  positions.map (enrich_position settings_data (build_max_leverage_map markets_data))

/-- The `leverage` object that AccountTransformer.transform_user_state
(`pacifica/transformers/account.py`) renders for one position: the display
`value` defaults a missing `leverage` to 20 (a rendering policy separate from
the resolution above). -/
def transform_position_leverage (pos : PyDict) : PyDict :=
  let isolated := jsonTruthy (pyGetD pos "isolated" (.bool false))
  [("type", .str (if isolated then "isolated" else "cross")),
   ("value", pyGetD pos "leverage" (.int 20)),
   ("rawUsd", if isolated then pyGetD pos "margin" (.str "0") else .null)]

/-- Well-formed embedded values: every object's keys are distinct at every
nesting depth — true of every value that comes from a Python dict, which
cannot hold duplicate keys. -/
inductive JsonWF : Json → Prop
  | null : JsonWF .null
  | bool (b : Bool) : JsonWF (.bool b)
  | int (n : Int) : JsonWF (.int n)
  | float (f : PyFloat) : JsonWF (.float f)
  | str (s : String) : JsonWF (.str s)
  | arr {l : List Json} : (∀ j ∈ l, JsonWF j) → JsonWF (.arr l)
  | obj {l : List (String × Json)} : (l.map Prod.fst).Nodup →
      (∀ p ∈ l, JsonWF p.2) → JsonWF (.obj l)

/-- Equality of embedded values as logical maps: scalars must be identical,
arrays must agree pointwise in order, and objects must bind the same keys to
equivalent values with the insertion order of the pairs permuted freely at
every nesting depth. -/
inductive JsonEquiv : Json → Json → Prop
  | null : JsonEquiv .null .null
  | bool (b : Bool) : JsonEquiv (.bool b) (.bool b)
  | int (n : Int) : JsonEquiv (.int n) (.int n)
  | float (f : PyFloat) : JsonEquiv (.float f) (.float f)
  | str (s : String) : JsonEquiv (.str s) (.str s)
  | arr {l₁ l₂ : List Json} : l₁.length = l₂.length →
      (∀ p ∈ l₁.zip l₂, JsonEquiv p.1 p.2) → JsonEquiv (.arr l₁) (.arr l₂)
  | obj {l₁ l l₂ : List (String × Json)} : l₁.length = l.length →
      (∀ p ∈ l₁.zip l, p.1.1 = p.2.1) →
      (∀ p ∈ l₁.zip l, JsonEquiv p.1.2 p.2.2) →
      l.Perm l₂ → JsonEquiv (.obj l₁) (.obj l₂)

/-- Every object reachable in the value has its keys in ascending
lexicographic order. -/
inductive SortedKeysDeep : Json → Prop
  | null : SortedKeysDeep .null
  | bool (b : Bool) : SortedKeysDeep (.bool b)
  | int (n : Int) : SortedKeysDeep (.int n)
  | float (f : PyFloat) : SortedKeysDeep (.float f)
  | str (s : String) : SortedKeysDeep (.str s)
  | arr {l : List Json} : (∀ j ∈ l, SortedKeysDeep j) → SortedKeysDeep (.arr l)
  | obj {l : List (String × Json)} : List.Sorted keyRel l →
      (∀ p ∈ l, SortedKeysDeep p.2) → SortedKeysDeep (.obj l)

/-- Coinciding code points force equal characters. -/
theorem char_toNat_inj {a b : Char} (h : a.toNat = b.toNat) : a = b := by
  apply Char.eq_of_val_eq
  apply UInt32.eq_of_val_eq
  exact Fin.eq_of_val_eq h

/-- The lexicographic order on character lists is total. -/
theorem charListLe_total (a : List Char) :
    ∀ b, charListLe a b = true ∨ charListLe b a = true := by
  induction a with
  | nil => intro b; left; simp [charListLe]
  | cons x xs ih =>
    intro b
    cases b with
    | nil => right; simp [charListLe]
    | cons y ys =>
      rcases Nat.lt_trichotomy x.toNat y.toNat with h | h | h
      · left; simp [charListLe, h]
      · rcases ih ys with h2 | h2
        · left; simp [charListLe, h, h2]
        · right; simp [charListLe, h.symm, h2]
      · right; simp [charListLe, h]

/-- The lexicographic order on character lists is transitive. -/
theorem charListLe_trans :
    ∀ {a b c : List Char}, charListLe a b = true → charListLe b c = true →
      charListLe a c = true := by
  intro a
  induction a with
  | nil => intro b c _ _; simp [charListLe]
  | cons x xs ih =>
    intro b c hab hbc
    cases b with
    | nil => simp [charListLe] at hab
    | cons y ys =>
      cases c with
      | nil => simp [charListLe] at hbc
      | cons z zs =>
        simp only [charListLe] at hab hbc ⊢
        split_ifs at hab hbc ⊢ <;>
          first
          | rfl
          | omega
          | exact ih hab hbc

/-- The strict lexicographic order on character lists is asymmetric. -/
theorem charListLt_asymm :
    ∀ {a b : List Char}, charListLt a b = true → charListLt b a = true → False := by
  intro a
  induction a with
  | nil =>
    intro b hab hba
    cases b with
    | nil => simp [charListLt] at hab
    | cons y ys => simp [charListLt] at hba
  | cons x xs ih =>
    intro b hab hba
    cases b with
    | nil => simp [charListLt] at hab
    | cons y ys =>
      simp only [charListLt] at hab hba
      split_ifs at hab hba <;> first | omega | exact ih hab hba

/-- A non-strict comparison between different lists is strict. -/
theorem charListLe_ne_lt :
    ∀ {a b : List Char}, charListLe a b = true → a ≠ b → charListLt a b = true := by
  intro a
  induction a with
  | nil =>
    intro b _ hne
    cases b with
    | nil => exact absurd rfl hne
    | cons y ys => simp [charListLt]
  | cons x xs ih =>
    intro b hab hne
    cases b with
    | nil => simp [charListLe] at hab
    | cons y ys =>
      simp only [charListLe] at hab
      simp only [charListLt]
      split_ifs at hab ⊢ with h1 h2
      · rfl
      · refine ih hab ?_
        intro hxs
        exact hne (by rw [char_toNat_inj h2, hxs])

instance : IsTotal (String × Json) keyRel :=
  ⟨fun a b => charListLe_total a.1.data b.1.data⟩

instance : IsTrans (String × Json) keyRel :=
  ⟨fun _ _ _ hab hbc => charListLe_trans hab hbc⟩

instance : IsAntisymm (String × Json) keyRelStrict :=
  ⟨fun _ _ hab hba => (charListLt_asymm hab hba).elim⟩

/-- Unfolding lemma: sorting inside an array maps over the elements. -/
theorem sort_json_keys_arr (l : List Json) :
    sort_json_keys (.arr l) = .arr (l.map sort_json_keys) := by
  rw [sort_json_keys]
  congr 1
  exact List.attach_map_val l sort_json_keys

/-- Unfolding lemma: sorting an object stably sorts the (recursively sorted)
pairs by key. -/
theorem sort_json_keys_obj (l : List (String × Json)) :
    sort_json_keys (.obj l) =
      .obj (List.insertionSort keyRel (l.map (fun p => (p.1, sort_json_keys p.2)))) := by
  rw [sort_json_keys]
  congr 2
  exact List.attach_map_val l (fun p => (p.1, sort_json_keys p.2))

/-- Two lists with pointwise equal images under `f` have equal maps. -/
theorem map_eq_of_zip {α β : Type} (f : α → β) :
    ∀ (l₁ l₂ : List α), l₁.length = l₂.length →
      (∀ p ∈ l₁.zip l₂, f p.1 = f p.2) → l₁.map f = l₂.map f := by
  intro l₁
  induction l₁ with
  | nil =>
    intro l₂ hlen _
    cases l₂ with
    | nil => rfl
    | cons b t => simp at hlen
  | cons a t ih =>
    intro l₂ hlen hp
    cases l₂ with
    | nil => simp at hlen
    | cons b t₂ =>
      simp only [List.map_cons]
      have h1 : f a = f b := hp (a, b) (by simp [List.zip_cons_cons])
      have h2 : t.map f = t₂.map f := by
        refine ih t₂ (by simpa using hlen) ?_
        intro p hpmem
        exact hp p (by simp [List.zip_cons_cons, hpmem])
      rw [h1, h2]

/-- Key equality in `sort_json_keys` recursion: permuting an object's pairs
and sorting commutes, because the stable sort of two pair lists that are
permutations of one another with duplicate-free keys agree. -/
theorem insertionSort_eq_of_perm_nodup
    {s₁ s₂ : List (String × Json)}
    (hperm : s₁.Perm s₂)
    (hnd : (s₁.map Prod.fst).Nodup) :
    List.insertionSort keyRel s₁ = List.insertionSort keyRel s₂ := by
  have hp₁ := List.perm_insertionSort keyRel s₁
  have hp₂ := List.perm_insertionSort keyRel s₂
  have hps : (List.insertionSort keyRel s₁).Perm (List.insertionSort keyRel s₂) :=
    (hp₁.trans hperm).trans hp₂.symm
  have hs₁ : List.Sorted keyRel (List.insertionSort keyRel s₁) :=
    List.sorted_insertionSort keyRel s₁
  have hs₂ : List.Sorted keyRel (List.insertionSort keyRel s₂) :=
    List.sorted_insertionSort keyRel s₂
  have hnd₁ : ((List.insertionSort keyRel s₁).map Prod.fst).Nodup :=
    ((hp₁.map Prod.fst).nodup_iff).mpr hnd
  have hnd₂ : ((List.insertionSort keyRel s₂).map Prod.fst).Nodup := by
    refine ((hp₂.map Prod.fst).nodup_iff).mpr ?_
    exact ((hperm.map Prod.fst).nodup_iff).mp hnd
  have hstrict : ∀ (s : List (String × Json)), List.Sorted keyRel s →
      (s.map Prod.fst).Nodup → List.Sorted keyRelStrict s := by
    intro s hs hndk
    have hne : List.Pairwise (fun p q : String × Json => p.1 ≠ q.1) s :=
      List.pairwise_map.mp hndk
    refine (hs.and hne).imp ?_
    intro p q hpq
    refine charListLe_ne_lt hpq.1 ?_
    intro hdata
    exact hpq.2 (String.ext hdata)
  exact List.eq_of_perm_of_sorted hps
    (hstrict _ hs₁ hnd₁) (hstrict _ hs₂ hnd₂)

/-- Main canonicalization invariance, by strong induction on the size of the
value: well-formed values that are equal as maps sort identically. -/
theorem sort_json_keys_eq_of_equiv_aux :
    ∀ (n : Nat) (j₁ j₂ : Json), sizeOf j₁ ≤ n → JsonWF j₁ → JsonWF j₂ →
      JsonEquiv j₁ j₂ → sort_json_keys j₁ = sort_json_keys j₂ := by
  intro n
  induction n using Nat.strong_induction_on with
  | _ n IH =>
    intro j₁ j₂ hsz w₁ w₂ h
    cases h with
    | null => rfl
    | bool b => rfl
    | int m => rfl
    | float f => rfl
    | str s => rfl
    | arr hlen hptw =>
      rename_i l₁ l₂
      rw [sort_json_keys_arr, sort_json_keys_arr]
      congr 1
      refine map_eq_of_zip sort_json_keys l₁ l₂ hlen ?_
      intro p hp
      have hmem := List.of_mem_zip hp
      have hsz1 : sizeOf p.1 < sizeOf (Json.arr l₁) := by
        have := List.sizeOf_lt_of_mem hmem.1
        simp only [Json.arr.sizeOf_spec]
        omega
      have hwf1 : JsonWF p.1 := by
        cases w₁ with
        | arr hw => exact hw p.1 hmem.1
      have hwf2 : JsonWF p.2 := by
        cases w₂ with
        | arr hw => exact hw p.2 hmem.2
      exact IH (sizeOf p.1) (by omega) p.1 p.2 (le_refl _) hwf1 hwf2 (hptw p hp)
    | obj hlen hkeys hvals hperm =>
      rename_i l₁ lmid l₂
      rw [sort_json_keys_obj, sort_json_keys_obj]
      have hnd₁ : (l₁.map Prod.fst).Nodup := by
        cases w₁ with
        | obj hnd _ => exact hnd
      have hwv₁ : ∀ p ∈ l₁, JsonWF p.2 := by
        cases w₁ with
        | obj _ hw => exact hw
      have hwv₂ : ∀ p ∈ l₂, JsonWF p.2 := by
        cases w₂ with
        | obj _ hw => exact hw
      have hmapeq : l₁.map (fun p => (p.1, sort_json_keys p.2)) =
          lmid.map (fun p => (p.1, sort_json_keys p.2)) := by
        refine map_eq_of_zip (fun p => (p.1, sort_json_keys p.2)) l₁ lmid hlen ?_
        intro p hp
        have hmem := List.of_mem_zip hp
        have hszp : sizeOf p.1.2 < sizeOf (Json.obj l₁) := by
          have h1 := List.sizeOf_lt_of_mem hmem.1
          have h2 : sizeOf p.1 = 1 + sizeOf p.1.1 + sizeOf p.1.2 := by
            obtain ⟨k₁, v₁⟩ := p.1
            rfl
          simp only [Json.obj.sizeOf_spec]
          omega
        have hwf1 : JsonWF p.1.2 := hwv₁ p.1 hmem.1
        have hwf2 : JsonWF p.2.2 := hwv₂ p.2 (hperm.mem_iff.mp hmem.2)
        have hv := IH (sizeOf p.1.2) (by omega) p.1.2 p.2.2 (le_refl _) hwf1 hwf2 (hvals p hp)
        exact Prod.ext (hkeys p hp) hv
      have hpermf : (l₁.map (fun p => (p.1, sort_json_keys p.2))).Perm
          (l₂.map (fun p => (p.1, sort_json_keys p.2))) := by
        rw [hmapeq]
        exact hperm.map _
      have hndf : ((l₁.map (fun p => (p.1, sort_json_keys p.2))).map Prod.fst).Nodup := by
        rw [List.map_map]
        exact hnd₁
      rw [insertionSort_eq_of_perm_nodup hpermf hndf]

/-- After `sort_json_keys`, every reachable object has ascending keys. -/
theorem sort_json_keys_sorted_aux :
    ∀ (n : Nat) (j : Json), sizeOf j ≤ n → SortedKeysDeep (sort_json_keys j) := by
  intro n
  induction n using Nat.strong_induction_on with
  | _ n IH =>
    intro j hsz
    cases j with
    | null => rw [sort_json_keys]; exact .null
    | bool b => rw [sort_json_keys]; exact .bool b
    | int m => rw [sort_json_keys]; exact .int m
    | float f => rw [sort_json_keys]; exact .float f
    | str s => rw [sort_json_keys]; exact .str s
    | arr l =>
      rw [sort_json_keys_arr]
      refine .arr ?_
      intro x hx
      obtain ⟨y, hy, rfl⟩ := List.mem_map.mp hx
      have hlt : sizeOf y < sizeOf (Json.arr l) := by
        have := List.sizeOf_lt_of_mem hy
        simp only [Json.arr.sizeOf_spec]
        omega
      exact IH (sizeOf y) (by omega) y (le_refl _)
    | obj l =>
      rw [sort_json_keys_obj]
      refine .obj (List.sorted_insertionSort keyRel _) ?_
      intro p hp
      have hmem : p ∈ l.map (fun q => (q.1, sort_json_keys q.2)) :=
        (List.perm_insertionSort keyRel _).mem_iff.mp hp
      obtain ⟨q, hq, rfl⟩ := List.mem_map.mp hmem
      have hlt : sizeOf q.2 < sizeOf (Json.obj l) := by
        have h1 := List.sizeOf_lt_of_mem hq
        have h2 : sizeOf q = 1 + sizeOf q.1 + sizeOf q.2 := by
          obtain ⟨k₁, v₁⟩ := q
          rfl
        simp only [Json.obj.sizeOf_spec]
        omega
      exact IH (sizeOf q.2) (by omega) q.2 (le_refl _)

/-- C2: the canonical serializer used for signing (`_sort_json_keys` followed
by compact JSON dumping in `sign_message`) is a pure function invariant under
key insertion order: any two well-formed inputs that are equal as maps
serialize to the identical byte sequence; keys appear in ascending
lexicographic order at every nesting depth of the sorted value; list element
order and scalar values are preserved. -/
theorem C2_canonical_serializer_pure :
    (∀ j₁ j₂ : Json, JsonWF j₁ → JsonWF j₂ → JsonEquiv j₁ j₂ →
        canonicalSerialize j₁ = canonicalSerialize j₂) ∧
    (∀ j : Json, SortedKeysDeep (sort_json_keys j)) ∧
    (∀ l : List Json, sort_json_keys (.arr l) = .arr (l.map sort_json_keys)) ∧
    (∀ b : Bool, sort_json_keys (.bool b) = .bool b) ∧
    (∀ n : Int, sort_json_keys (.int n) = .int n) ∧
    (∀ f : PyFloat, sort_json_keys (.float f) = .float f) ∧
    (∀ s : String, sort_json_keys (.str s) = .str s) ∧
    sort_json_keys .null = .null := by
  refine ⟨?_, ?_, ?_, ?_, ?_, ?_, ?_, ?_⟩
  · intro j₁ j₂ w₁ w₂ h
    unfold canonicalSerialize
    rw [sort_json_keys_eq_of_equiv_aux (sizeOf j₁) j₁ j₂ (le_refl _) w₁ w₂ h]
  · intro j
    exact sort_json_keys_sorted_aux (sizeOf j) j (le_refl _)
  · intro l
    exact sort_json_keys_arr l
  · intro b
    rw [sort_json_keys]
  · intro n
    rw [sort_json_keys]
  · intro f
    rw [sort_json_keys]
  · intro s
    rw [sort_json_keys]
  · rw [sort_json_keys]

/-- Witness for C2 at a concrete input: the two-key object with its insertion
order permuted serializes to the same canonical bytes. -/
theorem C2_canonical_serializer_pure_witness :
    canonicalSerialize (.obj [("b", .int 1), ("a", .str "x")]) =
      canonicalSerialize (.obj [("a", .str "x"), ("b", .int 1)]) := by
  have wf₁ : JsonWF (.obj [("b", .int 1), ("a", .str "x")]) := by
    refine JsonWF.obj (by simp) ?_
    intro p hp
    simp only [List.mem_cons, List.not_mem_nil, or_false] at hp
    rcases hp with h | h
    · rw [h]; exact .int 1
    · rw [h]; exact .str "x"
  have wf₂ : JsonWF (.obj [("a", .str "x"), ("b", .int 1)]) := by
    refine JsonWF.obj (by simp) ?_
    intro p hp
    simp only [List.mem_cons, List.not_mem_nil, or_false] at hp
    rcases hp with h | h
    · rw [h]; exact .str "x"
    · rw [h]; exact .int 1
  have heq : JsonEquiv (.obj [("b", .int 1), ("a", .str "x")])
      (.obj [("a", .str "x"), ("b", .int 1)]) := by
    refine JsonEquiv.obj (l := [("b", .int 1), ("a", .str "x")]) rfl ?_ ?_
      (List.Perm.swap (("a", Json.str "x") : String × Json) (("b", Json.int 1) : String × Json) [])
    · intro p hp
      simp only [List.zip_cons_cons, List.zip_nil_right, List.mem_cons,
        List.not_mem_nil, or_false] at hp
      rcases hp with h | h <;> rw [h]
    · intro p hp
      simp only [List.zip_cons_cons, List.zip_nil_right, List.mem_cons,
        List.not_mem_nil, or_false] at hp
      rcases hp with h | h
      · rw [h]; exact .int 1
      · rw [h]; exact .str "x"
  exact C2_canonical_serializer_pure.1 _ _ wf₁ wf₂ heq

/-- Setting a key makes it look up to the new value. -/
theorem pyLookup_set_self (d : PyDict) (k : String) (v : Json) :
    pyLookup (pyDictSet d k v) k = some v := by
  induction d with
  | nil => simp [pyDictSet, pyLookup]
  | cons p rest ih =>
    obtain ⟨k', v'⟩ := p
    by_cases h : k' = k
    · simp [pyDictSet, pyLookup, h]
    · simp [pyDictSet, pyLookup, h, ih]

/-- Setting one key leaves every other key's binding unchanged. -/
theorem pyLookup_set_other (d : PyDict) (k : String) (v : Json) (k' : String)
    (h : k ≠ k') : pyLookup (pyDictSet d k v) k' = pyLookup d k' := by
  induction d with
  | nil => simp [pyDictSet, pyLookup, h]
  | cons p rest ih =>
    obtain ⟨k₀, v₀⟩ := p
    by_cases h0 : k₀ = k
    · subst h0
      simp [pyDictSet, pyLookup, h]
    · simp [pyDictSet, pyLookup, h0, ih]

/-- A key whose lookup is `none` is absent. -/
theorem pyContains_eq_false_iff (d : PyDict) (k : String) :
    pyContains d k = false ↔ pyLookup d k = none := by
  unfold pyContains
  cases pyLookup d k <;> simp

/-- A key outside the key list never looks up. -/
theorem pyLookup_eq_none_of_not_mem_keys (d : PyDict) (k : String)
    (h : k ∉ pyKeys d) : pyLookup d k = none := by
  induction d with
  | nil => rfl
  | cons p rest ih =>
    obtain ⟨k₀, v₀⟩ := p
    simp only [pyKeys, List.map_cons, List.mem_cons] at h
    push_neg at h
    simp [pyLookup, Ne.symm h.1, ih (by simpa [pyKeys] using h.2)]

/-- Merging `upd` into `base` does not disturb keys absent from `upd`. -/
theorem pyLookup_union_not_mem (upd : PyDict) :
    ∀ (base : PyDict) (k : String), pyContains upd k = false →
      pyLookup (pyDictUnion base upd) k = pyLookup base k := by
  induction upd with
  | nil => intro base k _; rfl
  | cons p rest ih =>
    intro base k hk
    obtain ⟨k₀, v₀⟩ := p
    rw [pyContains_eq_false_iff] at hk
    simp only [pyLookup] at hk
    by_cases h0 : k₀ = k
    · simp [h0] at hk
    · have hrest : pyContains rest k = false := by
        rw [pyContains_eq_false_iff]
        simpa [h0] using hk
      show pyLookup (pyDictUnion (pyDictSet base k₀ v₀) rest) k = pyLookup base k
      rw [ih (pyDictSet base k₀ v₀) k hrest, pyLookup_set_other base k₀ v₀ k h0]

/-- Merging a duplicate-free `upd` into `base` preserves all of `upd`'s
bindings. -/
theorem pyLookup_union_self (upd : PyDict) :
    ∀ (base : PyDict) (k : String) (v : Json), (pyKeys upd).Nodup →
      pyLookup upd k = some v → pyLookup (pyDictUnion base upd) k = some v := by
  induction upd with
  | nil => intro base k v _ h; simp [pyLookup] at h
  | cons p rest ih =>
    intro base k v hnd h
    obtain ⟨k₀, v₀⟩ := p
    simp only [pyKeys, List.map_cons, List.nodup_cons] at hnd
    simp only [pyLookup] at h
    by_cases h0 : k₀ = k
    · subst h0
      have hv : v₀ = v := by simpa using h
      have hrest : pyContains rest k₀ = false := by
        rw [pyContains_eq_false_iff]
        exact pyLookup_eq_none_of_not_mem_keys rest k₀ hnd.1
      show pyLookup (pyDictUnion (pyDictSet base k₀ v₀) rest) k₀ = some v
      rw [pyLookup_union_not_mem rest (pyDictSet base k₀ v₀) k₀ hrest,
        pyLookup_set_self, hv]
    · simp only [if_neg h0] at h
      show pyLookup (pyDictUnion (pyDictSet base k₀ v₀) rest) k = some v
      exact ih (pyDictSet base k₀ v₀) k v hnd.2 h

/-- C3: for every action payload the request builder is the identity when no
signer is configured; with a signer the result carries the effective account,
the signature computed over the canonical header-plus-payload message, the
captured millisecond timestamp, the fixed expiry window 5000, every field of
the action payload, and an always-present `agent_wallet` key — the delegate's
own address in agent mode and explicitly null in direct mode. -/
theorem C3_request_builder_envelope :
    (∀ (d : PyDict) (st : String) (ts : Int),
      build_request_with_auth none d st ts = .ok d) ∧
    (∀ (a : PacificaAuth) (d : PyDict) (st : String) (ts : Int),
      (pyKeys d).Nodup →
      (∀ k ∈ ["account", "signature", "timestamp", "expiry_window", "agent_wallet"],
        pyContains d k = false) →
      ∃ (r : PyDict) (msg : String),
        build_request_with_auth (some a) d st ts = .ok r ∧
        sign_message a [("timestamp", .int ts), ("expiry_window", .int 5000),
          ("type", .str st)] (.obj d) = .ok (msg, a.sign msg) ∧
        pyLookup r "account" = some (.str (get_account a)) ∧
        pyLookup r "signature" = some (.str (a.sign msg)) ∧
        pyLookup r "timestamp" = some (.int ts) ∧
        pyLookup r "expiry_window" = some (.int 5000) ∧
        (∀ k v, pyLookup d k = some v → pyLookup r k = some v) ∧
        (is_agent_mode a = true → pyLookup r "agent_wallet" = some (.str a.public_key)) ∧
        (is_agent_mode a = false → pyLookup r "agent_wallet" = some .null)) := by
  constructor
  · intro d st ts
    rfl
  · intro a d st ts hnd hres
    have hacc : pyContains d "account" = false := hres "account" (by simp)
    have hsig : pyContains d "signature" = false := hres "signature" (by simp)
    have hts : pyContains d "timestamp" = false := hres "timestamp" (by simp)
    have hexp : pyContains d "expiry_window" = false := hres "expiry_window" (by simp)
    have haw : pyContains d "agent_wallet" = false := hres "agent_wallet" (by simp)
    have hguard : (pyContains [("timestamp", Json.int ts), ("expiry_window", Json.int 5000),
        ("type", Json.str st)] "type" &&
        pyContains [("timestamp", Json.int ts), ("expiry_window", Json.int 5000),
        ("type", Json.str st)] "timestamp" &&
        pyContains [("timestamp", Json.int ts), ("expiry_window", Json.int 5000),
        ("type", Json.str st)] "expiry_window") = true := by
      simp [pyContains, pyLookup]
    have hsm : sign_message a [("timestamp", .int ts), ("expiry_window", .int 5000),
        ("type", .str st)] (.obj d) =
        .ok (canonicalSerialize (.obj (pyDictSet [("timestamp", .int ts),
          ("expiry_window", .int 5000), ("type", .str st)] "data" (.obj d))),
          a.sign (canonicalSerialize (.obj (pyDictSet [("timestamp", .int ts),
          ("expiry_window", .int 5000), ("type", .str st)] "data" (.obj d))))) := by
      unfold sign_message
      rw [hguard]
      rfl
    set msg := canonicalSerialize (.obj (pyDictSet [("timestamp", Json.int ts),
      ("expiry_window", Json.int 5000), ("type", Json.str st)] "data" (.obj d))) with hmsg
    set base : PyDict := [("account", .str (get_account a)), ("signature", .str (a.sign msg)),
      ("timestamp", .int ts), ("expiry_window", .int 5000)] with hbase
    set awv : Json := (match get_agent_wallet a with
      | some w => .str w
      | none => .null) with hawv
    refine ⟨pyDictSet (pyDictUnion base d) "agent_wallet" awv, msg, ?_, hsm, ?_, ?_, ?_, ?_, ?_, ?_, ?_⟩
    · simp only [build_request_with_auth]
      rw [hsm]
    · rw [pyLookup_set_other _ _ _ _ (by decide),
        pyLookup_union_not_mem d base "account" hacc]
      simp [hbase, pyLookup]
    · rw [pyLookup_set_other _ _ _ _ (by decide),
        pyLookup_union_not_mem d base "signature" hsig]
      simp [hbase, pyLookup]
    · rw [pyLookup_set_other _ _ _ _ (by decide),
        pyLookup_union_not_mem d base "timestamp" hts]
      simp [hbase, pyLookup]
    · rw [pyLookup_set_other _ _ _ _ (by decide),
        pyLookup_union_not_mem d base "expiry_window" hexp]
      simp [hbase, pyLookup]
    · intro k v hk
      have hkaw : "agent_wallet" ≠ k := by
        intro hcontra
        rw [← hcontra] at hk
        rw [pyContains_eq_false_iff] at haw
        rw [haw] at hk
        cases hk
      rw [pyLookup_set_other _ _ _ _ hkaw]
      exact pyLookup_union_self d base k v hnd hk
    · intro hagent
      rw [pyLookup_set_self]
      unfold is_agent_mode at hagent
      unfold awv
      unfold get_agent_wallet
      cases hma : a.main_account with
      | none => rw [hma] at hagent; simp at hagent
      | some m => rfl
    · intro hdirect
      rw [pyLookup_set_self]
      unfold is_agent_mode at hdirect
      unfold awv
      unfold get_agent_wallet
      cases hma : a.main_account with
      | none => rfl
      | some m => rw [hma] at hdirect; simp at hdirect

/-- Witness for C3 at a concrete delegated signer and payload. -/
theorem C3_request_builder_envelope_witness :
    build_request_with_auth none [("symbol", Json.str "BTC")] "cancel_order" 7 =
      .ok [("symbol", Json.str "BTC")] ∧
    (∃ (r : PyDict) (msg : String),
      build_request_with_auth (some (PacificaAuth.mk "PK" (some "MAIN") (fun _ => "SIG")))
        [("symbol", Json.str "BTC")] "cancel_order" 7 = .ok r ∧
      sign_message (PacificaAuth.mk "PK" (some "MAIN") (fun _ => "SIG"))
        [("timestamp", .int 7), ("expiry_window", .int 5000),
          ("type", .str "cancel_order")] (.obj [("symbol", Json.str "BTC")]) =
        .ok (msg, (PacificaAuth.mk "PK" (some "MAIN") (fun _ => "SIG")).sign msg) ∧
      pyLookup r "account" =
        some (.str (get_account (PacificaAuth.mk "PK" (some "MAIN") (fun _ => "SIG")))) ∧
      pyLookup r "signature" =
        some (.str ((PacificaAuth.mk "PK" (some "MAIN") (fun _ => "SIG")).sign msg)) ∧
      pyLookup r "timestamp" = some (.int 7) ∧
      pyLookup r "expiry_window" = some (.int 5000) ∧
      (∀ k v, pyLookup [("symbol", Json.str "BTC")] k = some v → pyLookup r k = some v) ∧
      (is_agent_mode (PacificaAuth.mk "PK" (some "MAIN") (fun _ => "SIG")) = true →
        pyLookup r "agent_wallet" =
          some (.str (PacificaAuth.mk "PK" (some "MAIN") (fun _ => "SIG")).public_key)) ∧
      (is_agent_mode (PacificaAuth.mk "PK" (some "MAIN") (fun _ => "SIG")) = false →
        pyLookup r "agent_wallet" = some .null)) :=
  ⟨C3_request_builder_envelope.1 [("symbol", Json.str "BTC")] "cancel_order" 7,
   C3_request_builder_envelope.2 (PacificaAuth.mk "PK" (some "MAIN") (fun _ => "SIG"))
     [("symbol", Json.str "BTC")] "cancel_order" 7 (by decide) (by decide)⟩

/-- A 32-digit UUID renders as 36 characters (hyphens at 8-4-4-4-12). -/
theorem uuid4_string_length (dg : List (Fin 16)) (h : dg.length = 32) :
    (uuid4_string dg).length = 36 := by
  unfold uuid4_string
  simp [String.length, h]

/-- C5: a supplied client order id starting with `0x` is silently replaced by
the freshly generated 36-character UUID; any other non-empty id passes through
unchanged; an absent id yields the fresh UUID. -/
theorem C5_client_order_id_policy :
    ∀ (dg : List (Fin 16)) (cloid : Option String), dg.length = 32 →
      ((∀ c, cloid = some c → pyStartsWith c "0x" = true →
          generate_client_order_id (uuid4_string dg) cloid = uuid4_string dg ∧
          (uuid4_string dg).length = 36) ∧
       (∀ c, cloid = some c → c ≠ "" → pyStartsWith c "0x" = false →
          generate_client_order_id (uuid4_string dg) cloid = c) ∧
       (cloid = none →
          generate_client_order_id (uuid4_string dg) cloid = uuid4_string dg ∧
          (uuid4_string dg).length = 36)) := by
  intro dg cloid hlen
  refine ⟨?_, ?_, ?_⟩
  · intro c hceq hsw
    subst hceq
    have hcne : c ≠ "" := by
      intro h
      rw [h] at hsw
      exact absurd hsw (by decide)
    refine ⟨?_, uuid4_string_length dg hlen⟩
    simp [generate_client_order_id, hcne, hsw]
  · intro c hceq hcne hsw
    subst hceq
    simp [generate_client_order_id, hcne, hsw]
  · intro hceq
    subst hceq
    exact ⟨rfl, uuid4_string_length dg hlen⟩

/-- Witness for C5: a `0x`-prefixed legacy id is replaced by the fresh UUID of
length 36, and an ordinary id passes through. -/
theorem C5_client_order_id_policy_witness :
    (generate_client_order_id (uuid4_string (List.replicate 32 (0 : Fin 16)))
        (some "0xabc") = uuid4_string (List.replicate 32 (0 : Fin 16)) ∧
      (uuid4_string (List.replicate 32 (0 : Fin 16))).length = 36) ∧
    generate_client_order_id (uuid4_string (List.replicate 32 (0 : Fin 16)))
        (some "my-id") = "my-id" :=
  ⟨(C5_client_order_id_policy (List.replicate 32 (0 : Fin 16)) (some "0xabc")
      (by simp)).1 "0xabc" rfl (by decide),
   (C5_client_order_id_policy (List.replicate 32 (0 : Fin 16)) (some "my-id")
      (by simp)).2.1 "my-id" rfl (by decide) (by decide)⟩

/-- C4: the delegation invariant fails for the leverage update — with a
delegating main account configured ("MAIN", signer key "AGENT"), the request
dict built by `update_leverage` carries `account = "AGENT"` (the signer's own
public key, from `get_public_key()`), not the delegating account
`get_account() = "MAIN"`, and carries no `agent_wallet` key at all. -/
theorem C4_update_leverage_account_divergence :
    pyLookup (update_leverage_data
        (some (PacificaAuth.mk "AGENT" (some "MAIN") (fun _ => "SIG"))) "BTC" 5 1000)
      "account" = some (.str "AGENT") ∧
    get_account (PacificaAuth.mk "AGENT" (some "MAIN") (fun _ => "SIG")) = "MAIN" ∧
    pyContains (update_leverage_data
        (some (PacificaAuth.mk "AGENT" (some "MAIN") (fun _ => "SIG"))) "BTC" 5 1000)
      "agent_wallet" = false ∧
    ("AGENT" : String) ≠ "MAIN" := by
  refine ⟨rfl, rfl, rfl, by decide⟩

/-- C1: the numeric fields of the signed order payload are rendered with
Python's `str()`, not a fixed-point formatter: for the order size 1e-8 (the
float with shortest digits `1` and decimal point -7) the payload's `amount` is
the scientific-notation string "1e-08", which contains an exponent marker; and
the integral float 1.0 renders as "1.0", keeping its decimal point. -/
theorem C1_order_amount_scientific_notation :
    (∃ d : PyDict,
      order_request "u" "BTC" true (PyFloat.mk false [1] (-7))
          (some (PyFloat.mk false [1] 5)) (.obj [("limit", .obj [("tif", .str "GTC")])])
          false none none = .ok (d, "create_limit_order") ∧
      pyLookup d "amount" = some (.str "1e-08")) ∧
    ("1e-08".data.contains 'e' = true) ∧
    pyFloatRepr (PyFloat.mk false [1] 1) = "1.0" := by
  refine ⟨⟨_, rfl, rfl⟩, by decide, rfl⟩

/-- C10: an order whose `order_type` dict has neither a "limit" nor a "market"
key — or whose legacy string form is neither "limit" nor "market"
case-insensitively — fails locally with an UnboundLocalError on the local
`tif` (not a validation error), before any payload is signed or sent. -/
theorem C10_unknown_order_type_unbound_local :
    ∀ (auth : Option PacificaAuth) (ts : Int) (fresh name : String) (is_buy : Bool)
      (sz : PyFloat) (limit_px : Option PyFloat) (reduce_only : Bool)
      (cloid : Option String) (builder : Option PyDict),
      (match builder with
       | none => True
       | some b => b = [] ∨ pyContains b "b" = true) →
      ((∀ l : PyDict, pyContains l "limit" = false → pyContains l "market" = false →
          order_signed auth ts fresh name is_buy sz limit_px (.obj l) reduce_only
            cloid builder = .error (.unboundLocal "tif")) ∧
       (∀ s : String, pyLower s ≠ "limit" → pyLower s ≠ "market" →
          order_signed auth ts fresh name is_buy sz limit_px (.str s) reduce_only
            cloid builder = .error (.unboundLocal "tif"))) := by
  intro auth ts fresh name is_buy sz limit_px reduce_only cloid builder hbld
  have hbuilder : ∀ d : PyDict, ∃ d', apply_builder_single builder d = .ok d' := by
    intro d
    match builder with
    | none => exact ⟨d, rfl⟩
    | some b =>
      rcases hbld with hb | hb
      · subst hb
        exact ⟨d, rfl⟩
      · by_cases hemp : jsonTruthy (.obj b) = true
        · exact ⟨pyDictSet d "builder_code" (pyGetD b "b" .null),
            by simp [apply_builder_single, hemp, hb]⟩
        · exact ⟨d, by simp [apply_builder_single, hemp]⟩
  constructor
  · intro l h1 h2
    obtain ⟨d', hd'⟩ := hbuilder
      [("symbol", .str name), ("side", .str (if is_buy then "bid" else "ask")),
       ("amount", .str (pyFloatRepr sz)), ("reduce_only", .bool reduce_only),
       ("client_order_id", .str (generate_client_order_id fresh cloid))]
    simp [order_signed, order_request, order_type_branch, hd', h1, h2, order_tif_tail,
      Except.instMonad, Except.bind, Except.map, bind, Functor.map]
  · intro s h1 h2
    obtain ⟨d', hd'⟩ := hbuilder
      [("symbol", .str name), ("side", .str (if is_buy then "bid" else "ask")),
       ("amount", .str (pyFloatRepr sz)), ("reduce_only", .bool reduce_only),
       ("client_order_id", .str (generate_client_order_id fresh cloid))]
    simp [order_signed, order_request, order_type_branch, hd', h1, h2, order_tif_tail,
      Except.instMonad, Except.bind, Except.map, bind, Functor.map]

/-- Witness for C10: a dict order type with only a "stop" key fails with the
UnboundLocalError before anything is signed. -/
theorem C10_unknown_order_type_unbound_local_witness :
    order_signed none 0 "u" "BTC" true (PyFloat.mk false [1] 1) none
      (.obj [("stop", .null)]) false none none = .error (.unboundLocal "tif") :=
  (C10_unknown_order_type_unbound_local none 0 "u" "BTC" true (PyFloat.mk false [1] 1)
    none false none none trivial).1 [("stop", .null)] (by decide) (by decide)

/-- Counterexample to C6: in the async single-order translator a market order
(`order_type = {"market": {}}`) keeps the provisional `tif: "GTC"` and has no
`slippage_percent` field at all (it emits `type: "market"` instead). -/
theorem C6_async_market_keeps_tif :
    async_order_request "u" "BTC" true (PyFloat.mk false [1] 1)
        (PyFloat.mk false [1] 1) [("market", .obj [])] false none none =
      .ok ([("symbol", .str "BTC"), ("side", .str "bid"), ("amount", .str "1.0"),
            ("reduce_only", .bool false), ("client_order_id", .str "u"),
            ("tif", .str "GTC"), ("type", .str "market")], "create_order") ∧
    pyLookup [("symbol", .str "BTC"), ("side", .str "bid"), ("amount", .str "1.0"),
        ("reduce_only", .bool false), ("client_order_id", .str "u"),
        ("tif", .str "GTC"), ("type", .str "market")] "tif" = some (.str "GTC") ∧
    pyContains [("symbol", .str "BTC"), ("side", .str "bid"), ("amount", .str "1.0"),
        ("reduce_only", .bool false), ("client_order_id", .str "u"),
        ("tif", .str "GTC"), ("type", .str "market")] "slippage_percent" = false := by
  exact ⟨rfl, rfl, rfl⟩

/-- C6 (amended): in the synchronous translator — single order and batch item —
a limit order with time-in-force "Alo" yields `post_only = true`, `tif = "ALO"`
and no `slippage_percent`, and a market order yields
`slippage_percent = "0.5"` (the default) and no `tif`; the asynchronous
translator does not satisfy this (see the counterexample). -/
theorem C6_sync_alo_and_market_payloads :
    (∀ (fresh name : String) (is_buy : Bool) (sz px : PyFloat) (reduce_only : Bool)
        (cloid : Option String),
      ∃ d : PyDict,
        order_request fresh name is_buy sz (some px)
            (.obj [("limit", .obj [("tif", .str "Alo")])]) reduce_only cloid none =
          .ok (d, "create_limit_order") ∧
        pyLookup d "post_only" = some (.bool true) ∧
        pyLookup d "tif" = some (.str "ALO") ∧
        pyContains d "slippage_percent" = false) ∧
    (∀ (fresh name : String) (is_buy : Bool) (sz : PyFloat) (limit_px : Option PyFloat)
        (reduce_only : Bool) (cloid : Option String),
      ∃ d : PyDict,
        order_request fresh name is_buy sz limit_px
            (.obj [("market", .obj [])]) reduce_only cloid none =
          .ok (d, "create_market_order") ∧
        pyLookup d "slippage_percent" = some (.str "0.5") ∧
        pyContains d "tif" = false) ∧
    (∀ (fresh name : String) (is_buy : Bool) (sz px : Json),
      ∃ d : PyDict,
        batch_order_item fresh
            [("name", .str name), ("is_buy", .bool is_buy), ("sz", sz),
             ("limit_px", px),
             ("order_type", .obj [("limit", .obj [("tif", .str "Alo")])])] =
          .ok (d, "create_limit_order") ∧
        pyLookup d "post_only" = some (.bool true) ∧
        pyLookup d "tif" = some (.str "ALO") ∧
        pyContains d "slippage_percent" = false) ∧
    (∀ (fresh name : String) (is_buy : Bool) (sz : Json),
      ∃ d : PyDict,
        batch_order_item fresh
            [("name", .str name), ("is_buy", .bool is_buy), ("sz", sz),
             ("order_type", .obj [("market", .obj [])])] =
          .ok (d, "create_market_order") ∧
        pyLookup d "slippage_percent" = some (.str "0.5") ∧
        pyContains d "tif" = false) := by
  refine ⟨?_, ?_, ?_, ?_⟩
  · intro fresh name is_buy sz px reduce_only cloid
    exact ⟨_, rfl, rfl, rfl, rfl⟩
  · intro fresh name is_buy sz limit_px reduce_only cloid
    exact ⟨_, rfl, rfl, rfl⟩
  · intro fresh name is_buy sz px
    exact ⟨_, rfl, rfl, rfl, rfl⟩
  · intro fresh name is_buy sz
    exact ⟨_, rfl, rfl, rfl⟩

/-- Counterexample to C7: the async single-order translator signs a limit
order — whose final payload has a price and no `slippage_percent` — with the
constant signature type "create_order", not "create_limit_order". -/
theorem C7_async_sigtype_constant :
    async_order_request "u" "BTC" true (PyFloat.mk false [1] 1)
        (PyFloat.mk false [1] 1) [("limit", .obj [("tif", .str "Gtc")])] false
        none none =
      .ok ([("symbol", .str "BTC"), ("side", .str "bid"), ("amount", .str "1.0"),
            ("reduce_only", .bool false), ("client_order_id", .str "u"),
            ("tif", .str "GTC"), ("price", .str "1.0")], "create_order") ∧
    pyContains [("symbol", .str "BTC"), ("side", .str "bid"), ("amount", .str "1.0"),
        ("reduce_only", .bool false), ("client_order_id", .str "u"),
        ("tif", .str "GTC"), ("price", .str "1.0")] "slippage_percent" = false ∧
    ("create_order" : String) ≠ "create_limit_order" := by
  exact ⟨rfl, rfl, by decide⟩

/-- C7 (amended): in the synchronous translator (single order and batch item)
the signature type is a function of the final payload shape alone —
"create_market_order" exactly when the payload contains `slippage_percent`
and "create_limit_order" otherwise — and a legacy string order type
("limit"/"market", case-insensitive) produces exactly the same result as the
equivalent dict form; the async translator instead always signs with the
constant type "create_order" (see the counterexample). -/
theorem C7_sync_sigtype_from_final_payload :
    (∀ (fresh name : String) (is_buy : Bool) (sz : PyFloat)
        (limit_px : Option PyFloat) (order_type : Json) (reduce_only : Bool)
        (cloid : Option String) (builder : Option PyDict) (d : PyDict) (st : String),
      order_request fresh name is_buy sz limit_px order_type reduce_only cloid
          builder = .ok (d, st) →
      st = (if pyContains d "slippage_percent" then "create_market_order"
            else "create_limit_order")) ∧
    (∀ (fresh : String) (order_req : PyDict) (d : PyDict) (st : String),
      batch_order_item fresh order_req = .ok (d, st) →
      st = (if pyContains d "slippage_percent" then "create_market_order"
            else "create_limit_order")) ∧
    (∀ (s : String), pyLower s = "limit" →
      ∀ (fresh name : String) (is_buy : Bool) (sz : PyFloat)
        (limit_px : Option PyFloat) (reduce_only : Bool) (cloid : Option String)
        (builder : Option PyDict),
      order_request fresh name is_buy sz limit_px (.str s) reduce_only cloid builder =
        order_request fresh name is_buy sz limit_px
          (.obj [("limit", .obj [("tif", .str "GTC")])]) reduce_only cloid builder) ∧
    (∀ (s : String), pyLower s = "market" →
      ∀ (fresh name : String) (is_buy : Bool) (sz : PyFloat)
        (limit_px : Option PyFloat) (reduce_only : Bool) (cloid : Option String)
        (builder : Option PyDict),
      order_request fresh name is_buy sz limit_px (.str s) reduce_only cloid builder =
        order_request fresh name is_buy sz limit_px
          (.obj [("market", .obj [])]) reduce_only cloid builder) ∧
    (∀ (fresh name : String) (is_buy : Bool) (sz limit_px : PyFloat)
        (order_type : PyDict) (reduce_only : Bool) (cloid : Option String)
        (builder : Option PyDict) (d : PyDict) (st : String),
      async_order_request fresh name is_buy sz limit_px order_type reduce_only
          cloid builder = .ok (d, st) → st = "create_order") := by
  refine ⟨?_, ?_, ?_, ?_, ?_⟩
  · intro fresh name is_buy sz limit_px order_type reduce_only cloid builder d st h
    simp only [order_request, bind, Except.bind, pure, Except.pure] at h
    repeat' split at h
    all_goals simp_all
  · intro fresh order_req d st h
    simp only [batch_order_item, bind, Except.bind, pure, Except.pure] at h
    repeat' split at h
    all_goals simp_all
  · intro s hs fresh name is_buy sz limit_px reduce_only cloid builder
    have hbr : ∀ (px : Option PyFloat) (od : PyDict),
        order_type_branch px (.str s) od =
          order_type_branch px (.obj [("limit", .obj [("tif", .str "GTC")])]) od := by
      intro px od
      cases px <;> simp [order_type_branch, hs, pyContains, pyLookup, pyGetD]
    simp only [order_request, hbr]
  · intro s hs fresh name is_buy sz limit_px reduce_only cloid builder
    have hs2 : pyLower s ≠ "limit" := by
      rw [hs]
      decide
    have hbr : ∀ (px : Option PyFloat) (od : PyDict),
        order_type_branch px (.str s) od =
          order_type_branch px (.obj [("market", .obj [])]) od := by
      intro px od
      simp [order_type_branch, hs, hs2, pyContains, pyLookup, pyGetD, pyStr]
    simp only [order_request, hbr]
  · intro fresh name is_buy sz limit_px order_type reduce_only cloid builder d st h
    simp only [async_order_request, bind, Except.bind, pure, Except.pure] at h
    repeat' split at h
    all_goals simp_all

/-- Witness for C7: a concrete sync market order's signature type matches its
final payload shape, and the legacy string "LIMIT" normalizes to the same
translation as the equivalent dict order type. -/
theorem C7_sync_sigtype_from_final_payload_witness :
    (("create_market_order" : String) =
      (if pyContains [("symbol", Json.str "BTC"), ("side", Json.str "bid"),
          ("amount", Json.str "1.0"), ("reduce_only", Json.bool false),
          ("client_order_id", Json.str "u"), ("slippage_percent", Json.str "0.5")]
          "slippage_percent" then "create_market_order" else "create_limit_order")) ∧
    order_request "u" "BTC" true (PyFloat.mk false [1] 1)
        (some (PyFloat.mk false [1] 1)) (.str "LIMIT") false none none =
      order_request "u" "BTC" true (PyFloat.mk false [1] 1)
        (some (PyFloat.mk false [1] 1))
        (.obj [("limit", .obj [("tif", .str "GTC")])]) false none none :=
  ⟨C7_sync_sigtype_from_final_payload.1 "u" "BTC" true (PyFloat.mk false [1] 1) none
      (.obj [("market", .obj [])]) false none none
      [("symbol", Json.str "BTC"), ("side", Json.str "bid"),
       ("amount", Json.str "1.0"), ("reduce_only", Json.bool false),
       ("client_order_id", Json.str "u"), ("slippage_percent", Json.str "0.5")]
      "create_market_order" rfl,
   C7_sync_sigtype_from_final_payload.2.2.1 "LIMIT" (by decide) "u" "BTC" true
      (PyFloat.mk false [1] 1) (some (PyFloat.mk false [1] 1)) false none none⟩

/-- Task construction of the async batch cancel succeeds — producing one task
per request, in order — exactly as long as every oid/cloid request carries its
`name`. -/
theorem async_batch_cancel_tasks_ok :
    ∀ (items : List (PyDict × Bool)),
      (∀ p ∈ items, pyContains p.1 "name" = true) →
      async_batch_cancel_tasks items =
        .ok (items.map (fun x => (async_cancel_task_of x.1, x.2))) := by
  intro items
  induction items with
  | nil => intro _; rfl
  | cons x rest ih =>
    intro h
    obtain ⟨req, postOk⟩ := x
    have hname : pyContains req "name" = true := h (req, postOk) (by simp)
    obtain ⟨nm, hnm⟩ : ∃ nm, pyLookup req "name" = some nm := by
      unfold pyContains at hname
      cases hl : pyLookup req "name" with
      | none => rw [hl] at hname; simp at hname
      | some v => exact ⟨v, rfl⟩
    have hrest := ih (fun p hp => h p (by simp [hp]))
    by_cases h1 : pyContains req "oid" = true
    · simp [async_batch_cancel_tasks, h1, hnm, hrest, async_cancel_task_of, pyGetD]
    · by_cases h2 : pyContains req "cloid" = true
      · simp [async_batch_cancel_tasks, h1, h2, hnm, hrest, async_cancel_task_of, pyGetD]
      · simp [async_batch_cancel_tasks, h1, h2, hrest, async_cancel_task_of]

/-- C8 (amended): the synchronous batch cancel walks the cancel requests in
input order — the status list has exactly one entry per request, the i-th
entry is a function of the i-th request and its own transport outcome alone
(so one request's failure never changes another's entry), and in particular a
failing first cancel and a succeeding second produce ["error", "success"].
The asynchronous batch cancel satisfies the same positional, per-item-isolated
contract only when every request carries a `name` key; a request keyed by
`coin` instead aborts the whole call with a KeyError and no status list (see
the counterexample). -/
theorem C8_batch_cancel_positional :
    (∀ items : List (PyDict × Bool),
      (batch_cancel_statuses items).length = items.length) ∧
    (∀ (items : List (PyDict × Bool)) (i : Nat),
      (batch_cancel_statuses items)[i]? =
        (items[i]?).map (fun x => batch_cancel_item_status x.1 x.2)) ∧
    (∀ (items₁ items₂ : List (PyDict × Bool)) (i : Nat),
      items₁[i]? = items₂[i]? →
      (batch_cancel_statuses items₁)[i]? = (batch_cancel_statuses items₂)[i]?) ∧
    (∀ items : List (PyDict × Bool),
      (∀ p ∈ items, pyContains p.1 "name" = true) →
      async_batch_cancel items =
        .ok (items.map (fun x => async_batch_cancel_item_status x.1 x.2))) ∧
    batch_cancel_statuses
      [([("name", .str "BTC"), ("oid", .int 1)], false),
       ([("name", .str "ETH"), ("cloid", .str "x")], true)] = ["error", "success"] := by
  have hpos : ∀ (items : List (PyDict × Bool)) (i : Nat),
      (batch_cancel_statuses items)[i]? =
        (items[i]?).map (fun x => batch_cancel_item_status x.1 x.2) := by
    intro items
    induction items with
    | nil => intro i; simp [batch_cancel_statuses]
    | cons x rest ih =>
      intro i
      cases i with
      | zero => simp [batch_cancel_statuses]
      | succ j => simpa [batch_cancel_statuses] using ih j
  refine ⟨?_, hpos, ?_, ?_, ?_⟩
  · intro items
    induction items with
    | nil => rfl
    | cons x rest ih => simpa [batch_cancel_statuses] using ih
  · intro items₁ items₂ i h
    rw [hpos, hpos, h]
  · intro items h
    unfold async_batch_cancel
    rw [async_batch_cancel_tasks_ok items h]
    simp [List.map_map, Function.comp, async_batch_cancel_item_status]
  · rfl

/-- Counterexample to C8 as stated: the async batch cancel, given a
coin-keyed request (the very shape the sync path accepts and the SDK's own
cancel_all_orders produces), evaluates `cancel_req["name"]` eagerly while
building the task list, so the whole call aborts with a KeyError and returns
no status list — the second request loses its entry to the first's failure.
The synchronous path returns the full two-entry list on the same input. -/
theorem C8_async_batch_cancel_coin_key_aborts :
    async_batch_cancel
      [([("coin", .str "BTC"), ("oid", .int 1)], true),
       ([("name", .str "ETH"), ("cloid", .str "x")], true)] =
      .error (.valueError "KeyError: name") ∧
    batch_cancel_statuses
      [([("coin", .str "BTC"), ("oid", .int 1)], true),
       ([("name", .str "ETH"), ("cloid", .str "x")], true)] =
      ["success", "success"] := by
  exact ⟨rfl, rfl⟩

/-- Witness for C8: with the second request fixed, changing the first request
(and its outcome) leaves the second sync entry alone; and the async batch over
name-keyed requests yields its positional per-item status list. -/
theorem C8_batch_cancel_positional_witness :
    (batch_cancel_statuses
      [([("name", .str "BTC"), ("oid", .int 1)], false),
       ([("name", .str "ETH"), ("cloid", .str "x")], true)])[1]? =
    (batch_cancel_statuses
      [([("name", .str "SOL"), ("oid", .int 9)], true),
       ([("name", .str "ETH"), ("cloid", .str "x")], true)])[1]? ∧
    async_batch_cancel
      [([("name", .str "BTC"), ("oid", .int 1)], false),
       ([("name", .str "ETH"), ("cloid", .str "x")], true)] =
      .ok ([([("name", Json.str "BTC"), ("oid", Json.int 1)], false),
            ([("name", Json.str "ETH"), ("cloid", Json.str "x")], true)].map
        (fun x => async_batch_cancel_item_status x.1 x.2)) :=
  ⟨C8_batch_cancel_positional.2.2.1
    [([("name", .str "BTC"), ("oid", .int 1)], false),
     ([("name", .str "ETH"), ("cloid", .str "x")], true)]
    [([("name", .str "SOL"), ("oid", .int 9)], true),
     ([("name", .str "ETH"), ("cloid", .str "x")], true)] 1 rfl,
   C8_batch_cancel_positional.2.2.2.1
    [([("name", .str "BTC"), ("oid", .int 1)], false),
     ([("name", .str "ETH"), ("cloid", .str "x")], true)] (by decide)⟩

/-- C9: a position's leverage resolves from the per-symbol account setting
first, else from the market's maximum leverage; when neither source resolves,
no `leverage` key is stored on the position at all — while the position-render
step separately defaults a missing `leverage` to the display value 20, a
distinct policy that is not merged into resolution. -/
theorem C9_leverage_resolution_order :
    (∀ (sym : String) (sd entry mlm pos : PyDict) (v : Int),
      sym ≠ "" → v ≠ 0 →
      pyGetD pos "symbol" .null = .str sym →
      pyLookup sd sym = some (.obj entry) →
      pyLookup entry "leverage" = some (.int v) →
      pyLookup (enrich_position (.obj sd) mlm pos) "leverage" = some (.int v)) ∧
    (∀ (sym : String) (settings_data : Json) (mlm pos : PyDict) (m : Int),
      sym ≠ "" → m ≠ 0 →
      pyGetD pos "symbol" .null = .str sym →
      settings_leverage settings_data sym = none →
      pyLookup mlm sym = some (.int m) →
      pyLookup (enrich_position settings_data mlm pos) "leverage" = some (.int m)) ∧
    (∀ (sym : String) (settings_data : Json) (mlm pos : PyDict),
      sym ≠ "" →
      pyGetD pos "symbol" .null = .str sym →
      settings_leverage settings_data sym = none →
      pyLookup mlm sym = none →
      pyContains pos "leverage" = false →
      pyContains (enrich_position settings_data mlm pos) "leverage" = false) ∧
    (∀ pos : PyDict, pyContains pos "leverage" = false →
      pyLookup (transform_position_leverage pos) "value" = some (.int 20)) ∧
    (∀ (pos : PyDict) (v : Json), pyLookup pos "leverage" = some v →
      pyLookup (transform_position_leverage pos) "value" = some v) := by
  refine ⟨?_, ?_, ?_, ?_, ?_⟩
  · intro sym sd entry mlm pos v hsym hv hpos hsd hent
    simp [enrich_position, hpos, hsym, settings_leverage, hsd, hent, jsonTruthy,
      hv, pyLookup_set_self]
  · intro sym settings_data mlm pos m hsym hm hpos hsl hmlm
    simp [enrich_position, hpos, hsym, hsl, hmlm, jsonTruthy, hm, pyLookup_set_self]
  · intro sym settings_data mlm pos hsym hpos hsl hmlm hnolev
    simpa [enrich_position, hpos, hsym, hsl, hmlm] using hnolev
  · intro pos h
    rw [pyContains_eq_false_iff] at h
    simp [transform_position_leverage, pyLookup, pyGetD, h]
  · intro pos v h
    simp [transform_position_leverage, pyLookup, pyGetD, h]

/-- Witness for C9: a per-symbol account setting of 15 beats a market
max-leverage of 50 built into the leverage map; with neither source the
position stays without a `leverage` key; and the renderer shows 20 for such a
position. -/
theorem C9_leverage_resolution_order_witness :
    pyLookup (enrich_position (.obj [("BTC", .obj [("leverage", .int 15)])])
        (build_max_leverage_map [[("symbol", .str "BTC"), ("max_leverage", .int 50)]])
        [("symbol", .str "BTC")]) "leverage" = some (.int 15) ∧
    pyContains (enrich_position (.obj []) [] [("symbol", .str "BTC")]) "leverage" =
      false ∧
    pyLookup (transform_position_leverage [("symbol", .str "BTC")]) "value" =
      some (.int 20) :=
  ⟨C9_leverage_resolution_order.1 "BTC" [("BTC", .obj [("leverage", .int 15)])]
      [("leverage", .int 15)]
      (build_max_leverage_map [[("symbol", .str "BTC"), ("max_leverage", .int 50)]])
      [("symbol", .str "BTC")] 15 (by decide) (by decide) rfl rfl rfl,
   C9_leverage_resolution_order.2.2.1 "BTC" (.obj []) [] [("symbol", .str "BTC")]
      (by decide) rfl rfl rfl rfl,
   C9_leverage_resolution_order.2.2.2.1 [("symbol", .str "BTC")] rfl⟩
